import Mathlib

/-!
# ARGO messaging: the in-memory broker and the request wrappers

A shallow embedding of `brokers/mock.go` and `handlers/handlers.go`.

* Go strings are Lean strings; Go slices are lists.
* `int64(len(b.MsgList) + 1)` is an `Int`: a slice never holds `2^63 - 1`
  elements, so the addition cannot wrap.
* Stateful code passes its state explicitly: a method of `*MockBroker` returns
  the new broker next to its results.
* Collaborators that live in other packages (`messages`, `auth`, `projects`,
  `validation`, the push client, `encoding/json`) are parameters.
-/

namespace ArgoMessaging

/-! ## strconv -/

/-- Decimal text of a 64-bit integer, as `strconv.FormatInt(i, 10)` writes it:
a minus sign for a negative value, then the digits, most significant first. -/
def FormatInt (i : Int) : String :=
  if i < 0 then String.mk ('-' :: Nat.toDigits 10 i.natAbs)
  else String.mk (Nat.toDigits 10 i.natAbs)

/-- Reads a run of decimal digits from left to right on top of `acc`;
`none` as soon as a character is not a digit. -/
def readDigits (acc : Nat) : List Char → Option Nat
  | [] => some acc
  | c :: cs => if c.isDigit then readDigits (acc * 10 + (c.toNat - 48)) cs else none

/-- Reads a message ID back as a decimal integer: an optional minus sign
followed by at least one digit. -/
def ParseDecimal (s : String) : Option Int :=
  match s.toList with
  | [] => none
  | c :: cs =>
    if c = '-' then
      if cs = [] then none else (readDigits 0 cs).map (fun n => -Int.ofNat n)
    else (readDigits 0 (c :: cs)).map (fun n => Int.ofNat n)

/-! ## brokers/mock.go -/

/-- The in-memory broker: `MockBroker struct { MsgList []string }`. -/
structure MockBroker where
  MsgList : List String
deriving DecidableEq

/-- What `Publish` returns: `(msgID, topic, partition, offset)`. -/
structure PublishResult where
  msgID : String
  topic : String
  partition : Int
  offset : Int
deriving DecidableEq

namespace MockBroker

/-- Method `Initialize`: `b.MsgList = make([]string, 0)`. -/
def Initialize (_b : MockBroker) (_peers : List String) : MockBroker :=
  { MsgList := [] }

/-- Method `GetOffset`: `int64(len(b.MsgList) + 1)`, whatever the topic. -/
def GetOffset (b : MockBroker) (_topic : String) : Int :=
  ((b.MsgList.length + 1 : Nat) : Int)

/-- Method `Publish`: appends the exported payload, then derives the message ID from
`GetOffset` of the grown list. `ExportJSON` is `msg.ExportJSON()`, whose error
the code discards. -/
def Publish {Message : Type} (ExportJSON : Message → String × Option String)
    (b : MockBroker) (topic : String) (msg : Message) : MockBroker × PublishResult :=
  let payload := (ExportJSON msg).1
  let b1 : MockBroker := { MsgList := b.MsgList ++ [payload] }
  let off := b1.GetOffset topic - 1
  let msgID := FormatInt off
  (b1, { msgID := msgID, topic := "ARGO.topic1", partition := 0,
         offset := (b1.MsgList.length : Int) })

/-- Method `Consume`: `return b.MsgList`. -/
def Consume (b : MockBroker) (_topic : String) (_offset : Int) (_imm : Bool) : List String :=
  b.MsgList

end MockBroker

/-- Calls `Publish` once per message, in order, on the same topic, and collects
the returned message IDs. -/
def publishAll {Message : Type} (ExportJSON : Message → String × Option String)
    (topic : String) : MockBroker → List Message → MockBroker × List String
  | b, [] => (b, [])
  | b, m :: ms =>
    let r := MockBroker.Publish ExportJSON b topic m
    let rest := publishAll ExportJSON topic r.1 ms
    (rest.1, r.2.msgID :: rest.2)

/-! ## handlers/errors.go (not part of the excerpt) -/

/-- Modelled from the spec: the error values built by `APIErrorInvalidName(key)`,
`APIErrorUnauthorized()`, `APIErrorForbidden()`, `APIErrorNotFound(name)` and
`APIErrGenericInternal(msg)`, whose file is missing. One constructor per
builder, carrying the builder's argument. -/
inductive APIErrorRoot where
  | InvalidName (key : String)
  | Unauthorized
  | Forbidden
  | NotFound (name : String)
  | GenericInternal (msg : String)
deriving DecidableEq

/-- Modelled from the spec: `apiErr.Body.Code`, the status class the error
taxonomy gives each kind (validation 400, unauthorized 401, forbidden 403,
not found 404, internal 500); the builders themselves are missing. -/
def APIErrorRoot.Code : APIErrorRoot → Nat
  | .InvalidName _ => 400
  | .Unauthorized => 401
  | .Forbidden => 403
  | .NotFound _ => 404
  | .GenericInternal _ => 500

/-! ## The request and what a handler does with it -/

/-- A Go `map[string]string` such as `mux.Vars(r)`: key/value entries in some
iteration order, with pairwise distinct keys. -/
structure Vars where
  entries : List (String × String)
  nodup : (entries.map Prod.fst).Nodup

/-- Map indexing `urlVars[key]`: the value stored under the key, the empty
string when the key is absent. -/
def Vars.get (m : Vars) (key : String) : String :=
  (m.entries.lookup key).getD ""

/-- The keys collected by `for key := range urlVars`. -/
def Vars.keys (m : Vars) : List String :=
  m.entries.map Prod.fst

/-- The query of a URL, `r.URL.Query()`, as name/value pairs in the order of
the raw query. -/
abbrev Values := List (String × String)

/-- Method `url.Values.Get`: the first value given for the name, the empty string when
there is none. -/
def Values.Get (v : Values) (key : String) : String :=
  (v.lookup key).getD ""

/-- The push client `push.Client` as far as `HealthCheck` uses it:
`Target()` and `HealthCheck(ctx).Result(detailed)`. -/
structure PushClient where
  Target : String
  HealthCheckResult : Bool → String

/-- The values `gorillaContext` holds for a request. `WrapConfig` sets `str`,
`apsc`, `auth_service_token`, `push_worker_token` and `push_enabled` before
any wrapper below runs; the four `auth_` values are absent until
`WrapAuthenticate` (or `HealthCheck`) sets them. The values no function below
reads (`brk`, `mgr`, `auth_resource`) are left out. -/
structure Context (Store : Type) where
  str : Store
  apsc : PushClient
  auth_service_token : String
  push_worker_token : String
  push_enabled : Bool
  auth_roles : Option (List String)
  auth_user : Option String
  auth_user_uuid : Option String
  auth_project_uuid : Option String

/-- The parts of `*http.Request` the handlers read: the path variables, the
query, the name of the matched route, and the request-scoped context. -/
structure Request (Store : Type) where
  urlVars : Vars
  query : Values
  routeName : String
  ctx : Context Store

/-- Struct `User` of package `auth`, as far as `HealthCheck` reads it. -/
structure User where
  UUID : String
  Name : String
  ServiceRoles : List String

/-- Struct `PushServerInfo`. -/
structure PushServerInfo where
  Endpoint : String
  Status : String
deriving DecidableEq

/-- Struct `HealthStatus`; an empty string or list is an omitted JSON member. -/
structure HealthStatus where
  Status : String
  PushServers : List PushServerInfo
  PushFunctionality : String
deriving DecidableEq

/-- What a handler does, in order: calls to collaborators, writes to the
response, and the call of the wrapped handler with the request as it is then. -/
inductive Event (Store : Type) where
  /-- Call `projects.GetUUIDByName(name, store)` -/
  | projectsGetUUIDByName (name : String)
  /-- Call `auth.Authenticate(projectUUID, key, store)` -/
  | authAuthenticate (projectUUID key : String)
  /-- Call `auth.GetUUIDByName(user, store)` -/
  | authGetUUIDByName (user : String)
  /-- Call `auth.Authorize(routeName, roles, store)` -/
  | authAuthorize (routeName : String) (roles : List String)
  /-- Call `auth.GetUserByToken(key, store)` -/
  | authGetUserByToken (key : String)
  /-- Call `auth.GetPushWorker(token, store)` -/
  | authGetPushWorker (token : String)
  /-- Call `apsc.Target()` -/
  | apscTarget
  /-- Call `apsc.HealthCheck(context.TODO())` -/
  | apscHealthCheck
  /-- Call `w.Header().Add(key, value)` -/
  | headerAdd (key value : String)
  /-- Response `respondErr(w, apiErr)`: status `apiErr.Body.Code`, body the error as JSON -/
  | respondErr (apiErr : APIErrorRoot)
  /-- Response `respondOK(w, output)`: status 200, body `output` -/
  | respondOK (output : String)
  /-- Call `hfn.ServeHTTP(w, r)` -/
  | ServeHTTP (r : Request Store)
  /-- A failed type assertion on a value missing from the context -/
  | panics

/-- The status code an event writes to the response, if it writes one. -/
def Event.statusCode {Store : Type} : Event Store → Option Nat
  | .respondErr apiErr => some apiErr.Code
  | .respondOK _ => some 200
  | _ => none

/-! ## handlers/handlers.go -/

/-- Call `sort.Strings(keys)`: the keys in increasing order. Go compares strings
byte by byte, which on UTF-8 text is the order by code points. -/
def sortStrings (keys : List String) : List String :=
  keys.insertionSort (fun a b => a ≤ b)

/-- Handler `WrapValidate`: walks the path variables in sorted key order and answers
`InvalidName` for the first whose value fails `validation.ValidName`; calls the
wrapped handler when the loop ends. -/
def WrapValidate {Store : Type} (ValidName : String → Bool) (r : Request Store) :
    Request Store × List (Event Store) :=
  let urlVars := r.urlVars
  let keys := sortStrings urlVars.keys
  match keys.find? (fun key => ValidName (urlVars.get key) == false) with
  | some key => (r, [.respondErr (.InvalidName key)])
  | none => (r, [.ServeHTTP r])

/-- Handler `WrapAuthenticate`. `GetUUIDByName` is `projects.GetUUIDByName`,
`Authenticate` is `auth.Authenticate`, `authGetUUIDByName` is
`auth.GetUUIDByName`. -/
def WrapAuthenticate {Store : Type} (GetUUIDByName : String → Store → String)
    (Authenticate : String → String → Store → List String × String)
    (authGetUUIDByName : String → Store → String) (r : Request Store) :
    Request Store × List (Event Store) :=
  let urlVars := r.urlVars
  let urlValues := r.query
  if urlValues.Get "key" = "" then
    (r, [.respondErr .Unauthorized])
  else
    let refStr := r.ctx.str
    let serviceToken := r.ctx.auth_service_token
    let projectName := urlVars.get "project"
    let projectUUID := GetUUIDByName (urlVars.get "project") refStr
    let lookedUp : List (Event Store) := [.projectsGetUUIDByName (urlVars.get "project")]
    if "projects:create" ≠ r.routeName ∧ projectName ≠ "" ∧ projectUUID = "" then
      (r, lookedUp ++ [.respondErr (.NotFound "project")])
    else if serviceToken ≠ "" ∧ serviceToken = urlValues.Get "key" then
      let r1 : Request Store := { r with ctx := { r.ctx with
        auth_roles := some ["service_admin"], auth_user := some "",
        auth_user_uuid := some "", auth_project_uuid := some projectUUID } }
      (r1, lookedUp ++ [.ServeHTTP r1])
    else
      let found := Authenticate projectUUID (urlValues.Get "key") refStr
      let roles := found.1
      let user := found.2
      let authenticated : List (Event Store) :=
        lookedUp ++ [.authAuthenticate projectUUID (urlValues.Get "key")]
      if roles.length > 0 then
        let userUUID := authGetUUIDByName user refStr
        let r1 : Request Store := { r with ctx := { r.ctx with
          auth_roles := some roles, auth_user := some user,
          auth_user_uuid := some userUUID, auth_project_uuid := some projectUUID } }
        (r1, authenticated ++ [.authGetUUIDByName user, .ServeHTTP r1])
      else
        (r, authenticated ++ [.respondErr .Unauthorized])

/-- Handler `WrapAuthorize`. `Authorize` is `auth.Authorize`. The assertion
`gorillaContext.Get(r, "auth_roles").([]string)` fails when no roles were
attached. -/
def WrapAuthorize {Store : Type} (Authorize : String → List String → Store → Bool)
    (routeName : String) (r : Request Store) : Request Store × List (Event Store) :=
  let urlValues := r.query
  let refStr := r.ctx.str
  match r.ctx.auth_roles with
  | none => (r, [.panics])
  | some refRoles =>
    let serviceToken := r.ctx.auth_service_token
    if serviceToken ≠ "" ∧ serviceToken = urlValues.Get "key" then
      (r, [.ServeHTTP r])
    else if Authorize routeName refRoles refStr then
      (r, [.authAuthorize routeName refRoles, .ServeHTTP r])
    else
      (r, [.authAuthorize routeName refRoles, .respondErr .Forbidden])

/-- Handler `HealthCheck`. `GetUserByToken` and `GetPushWorker` are those of package
`auth` (a result and an error, `none` for `nil`), `IsAdminViewer` and
`IsServiceAdmin` its role tests, `MarshalIndent` is `json.MarshalIndent` with
the indentation the code passes. -/
def HealthCheck {Store : Type} (GetUserByToken : String → Store → User × Option String)
    (IsAdminViewer IsServiceAdmin : List String → Bool)
    (GetPushWorker : String → Store → User × Option String)
    (MarshalIndent : HealthStatus → Except String String) (r : Request Store) :
    Request Store × List (Event Store) :=
  let apsc := r.ctx.apsc
  let contentType := "application/json"
  let charset := "utf-8"
  let header : List (Event Store) :=
    [.headerAdd "Content-Type" (contentType ++ "; charset=" ++ charset)]
  let healthMsg : HealthStatus := { Status := "ok", PushServers := [], PushFunctionality := "" }
  let pwToken := r.ctx.push_worker_token
  let pushEnabled := r.ctx.push_enabled
  let refStr := r.ctx.str
  -- the details part: an early answer, or the request, the flag and the calls made
  let details : Except (List (Event Store)) (Request Store × Bool × List (Event Store)) :=
    if r.query.Get "details" = "true" then
      let user := (GetUserByToken (r.query.Get "key") refStr).1
      let lookedUp : List (Event Store) := [.authGetUserByToken (r.query.Get "key")]
      if user.Name = "" then
        .error (lookedUp ++ [.respondErr .Forbidden])
      else if (!IsAdminViewer user.ServiceRoles && !IsServiceAdmin user.ServiceRoles) = true then
        .error (lookedUp ++ [.respondErr .Unauthorized])
      else
        .ok ({ r with ctx := { r.ctx with auth_user_uuid := some user.UUID } }, true, lookedUp)
    else .ok (r, false, [])
  match details with
  | .error answered => (r, header ++ answered)
  | .ok (r1, detailedStatus, checked) =>
    let push : HealthStatus × List (Event Store) :=
      if pushEnabled = true then
        let err := (GetPushWorker pwToken refStr).2
        let healthMsg1 : HealthStatus :=
          if err ≠ none then { healthMsg with Status := "warning" } else healthMsg
        ({ healthMsg1 with PushServers :=
            [{ Endpoint := apsc.Target, Status := apsc.HealthCheckResult detailedStatus }] },
         [.authGetPushWorker pwToken, .apscTarget, .apscHealthCheck])
      else
        ({ healthMsg with PushFunctionality := "disabled" }, [])
    match MarshalIndent push.1 with
    | .error e => (r1, header ++ checked ++ push.2 ++ [.respondErr (.GenericInternal e)])
    | .ok bytes => (r1, header ++ checked ++ push.2 ++ [.respondOK bytes])

/-! ## Concrete requests -/

/-- A context as `WrapConfig` leaves it, with the service token `S3CR3T`. -/
def sampleContext : Context Unit :=
  { str := (), apsc := { Target := "localhost:5555", HealthCheckResult := fun d =>
      if d then "SERVING (detailed)" else "SERVING" },
    auth_service_token := "S3CR3T", push_worker_token := "pwtoken", push_enabled := true,
    auth_roles := none, auth_user := none, auth_user_uuid := none, auth_project_uuid := none }

/-- A request on the route `routeName` for `/projects/{project}/topics/{topic}`
with the query `?key=...`. -/
def sampleRequest (routeName project topic key : String) : Request Unit :=
  { urlVars := { entries := [("topic", topic), ("project", project)], nodup := by simp },
    query := [("key", key)], routeName := routeName, ctx := sampleContext }

/-- A store that knows the single project `ARGO`. -/
def sampleGetUUIDByName (name : String) (_str : Unit) : String :=
  if name = "ARGO" then "argo_uuid" else ""

/-- A store where the key `userkey` belongs to `UserA`, a publisher. -/
def sampleAuthenticate (_projectUUID key : String) (_str : Unit) : List String × String :=
  if key = "userkey" then (["publisher"], "UserA") else ([], "")

/-- A name rule for examples: a value is valid when it has no blank. -/
def sampleValidName (value : String) : Bool :=
  !value.toList.contains ' '

/-- A store with the service admin `Admin` (key `adminkey`) and the plain user
`UserA` (key `userkey`); any other key matches no user. -/
def sampleGetUserByToken (key : String) (_str : Unit) : User × Option String :=
  if key = "adminkey" then
    ({ UUID := "uuid0", Name := "Admin", ServiceRoles := ["service_admin"] }, none)
  else if key = "userkey" then
    ({ UUID := "uuid1", Name := "UserA", ServiceRoles := [] }, none)
  else ({ UUID := "", Name := "", ServiceRoles := [] }, some "not found")

/-- A store whose only push worker has the token `pwtoken`. -/
def sampleGetPushWorker (token : String) (_str : Unit) : User × Option String :=
  if token = "pwtoken" then
    ({ UUID := "uuid7", Name := "worker", ServiceRoles := ["push_worker"] }, none)
  else ({ UUID := "", Name := "", ServiceRoles := [] }, some "push worker not found")

/-- A stand-in for the JSON encoder that never fails. -/
def sampleMarshalIndent (m : HealthStatus) : Except String String :=
  .ok (m.Status ++ ";" ++ m.PushFunctionality ++ ";" ++
    String.join (m.PushServers.map (fun p => p.Endpoint ++ "=" ++ p.Status)))

/-- A request `GET /status?details=...&key=...`. -/
def sampleHealthRequest (details key : String) (pushEnabled : Bool) : Request Unit :=
  { urlVars := { entries := [], nodup := by simp },
    query := [("details", details), ("key", key)], routeName := "ams:healthStatus",
    ctx := { sampleContext with push_enabled := pushEnabled } }

/-! ## Decimal text: reading back what `FormatInt` writes -/

theorem digitChar_isDigit (d : Nat) (h : d < 10) :
    (Nat.digitChar d).isDigit = true ∧ (Nat.digitChar d).toNat - 48 = d := by
  interval_cases d <;> decide

theorem readDigits_toDigitsCore (fuel : Nat) :
    ∀ (n : Nat) (ds : List Char), n < fuel →
      readDigits 0 (Nat.toDigitsCore 10 fuel n ds) = readDigits n ds := by
  induction fuel with
  | zero => intro n ds h; omega
  | succ fuel ih =>
    intro n ds h
    have hd := digitChar_isDigit (n % 10) (Nat.mod_lt _ (by decide))
    simp only [Nat.toDigitsCore]
    split
    · rename_i h0
      have hn : n % 10 = n := by omega
      simp only [readDigits, hd.1, hd.2, if_true]
      rw [hn, Nat.zero_mul, Nat.zero_add]
    · rename_i h0
      rw [ih (n / 10) _ (by omega)]
      have hn : n / 10 * 10 + n % 10 = n := by omega
      simp [readDigits, hd.1, hd.2, hn]

theorem toDigitsCore_ne_nil (fuel : Nat) :
    ∀ (n : Nat) (ds : List Char), (0 < fuel ∨ ds ≠ []) →
      Nat.toDigitsCore 10 fuel n ds ≠ [] := by
  induction fuel with
  | zero => intro n ds h; rcases h with h | h; · omega
            · simpa [Nat.toDigitsCore] using h
  | succ fuel ih =>
    intro n ds _
    simp only [Nat.toDigitsCore]
    split
    · simp
    · exact ih _ _ (Or.inr (by simp))

theorem readDigits_toDigits (n : Nat) : readDigits 0 (Nat.toDigits 10 n) = some n := by
  unfold Nat.toDigits
  rw [readDigits_toDigitsCore (n + 1) n [] (by omega)]
  rfl

theorem toDigits_ne_nil (n : Nat) : Nat.toDigits 10 n ≠ [] :=
  toDigitsCore_ne_nil (n + 1) n [] (Or.inl (by omega))

/-- Reading back the text of an integer gives the integer. -/
theorem ParseDecimal_FormatInt (i : Int) : ParseDecimal (FormatInt i) = some i := by
  unfold FormatInt
  by_cases h : i < 0
  · simp only [h, if_true, ParseDecimal]
    simp [toDigits_ne_nil, readDigits_toDigits]
    rw [abs_of_neg h, neg_neg]
  · simp only [h, if_false, ParseDecimal]
    have hne := toDigits_ne_nil i.natAbs
    have hrd := readDigits_toDigits i.natAbs
    cases hds : Nat.toDigits 10 i.natAbs with
    | nil => exact absurd hds hne
    | cons c cs =>
      rw [hds] at hrd
      have hc : c ≠ '-' := by
        intro hc
        subst hc
        simp [readDigits] at hrd
      simp [hc, hrd]
      omega

/-! ## The in-memory broker -/

/-- Publishing a list of messages appends their payloads and hands out the
decimal texts of the successive list lengths. -/
theorem publishAll_eq {Message : Type} (ExportJSON : Message → String × Option String)
    (topic : String) (msgs : List Message) : ∀ b : MockBroker,
    publishAll ExportJSON topic b msgs =
      ({ MsgList := b.MsgList ++ msgs.map (fun m => (ExportJSON m).1) },
       (List.range msgs.length).map
         (fun i => FormatInt (((b.MsgList.length + i + 1 : Nat) : Int)))) := by
  induction msgs with
  | nil => intro b; simp [publishAll]
  | cons m ms ih =>
    intro b
    simp only [publishAll, ih, MockBroker.Publish, MockBroker.GetOffset, List.length_cons,
      List.range_succ_eq_map, List.map_cons, List.map_map, List.length_append,
      List.length_singleton, List.append_assoc, List.singleton_append]
    refine Prod.ext rfl ?_
    simp only [List.cons.injEq]
    constructor
    · congr 1
      simp only [List.length_nil]
      push_cast
      ring
    · apply List.map_congr_left
      intro i _
      simp only [Function.comp, List.length_nil]
      congr 1
      push_cast
      ring

/-- C6: after N publishes on a freshly initialised in-memory broker `GetOffset`
is N+1, one message ID is returned per publish, and of two consecutive
publishes the earlier ID, read as a decimal integer, is strictly less than the
later one. -/
theorem publish_offset_and_increasing_ids {Message : Type}
    (ExportJSON : Message → String × Option String) (b0 : MockBroker) (peers : List String)
    (topic : String) (msgs : List Message) :
    (publishAll ExportJSON topic (b0.Initialize peers) msgs).1.GetOffset topic
        = (msgs.length : Int) + 1 ∧
    (publishAll ExportJSON topic (b0.Initialize peers) msgs).2.length = msgs.length ∧
    ∀ i : Nat, i + 1 < msgs.length →
      ∃ x y : Int,
        (publishAll ExportJSON topic (b0.Initialize peers) msgs).2[i]?.bind ParseDecimal
          = some x ∧
        (publishAll ExportJSON topic (b0.Initialize peers) msgs).2[i + 1]?.bind ParseDecimal
          = some y ∧
        x < y := by
  rw [publishAll_eq]
  refine ⟨?_, ?_, ?_⟩
  · simp [MockBroker.GetOffset, MockBroker.Initialize]
  · simp
  · intro i hi
    refine ⟨((i + 1 : Nat) : Int), ((i + 1 + 1 : Nat) : Int), ?_, ?_, ?_⟩
    · have h1 : i < msgs.length := by omega
      simp [MockBroker.Initialize, List.getElem?_range, h1, ParseDecimal_FormatInt]
    · simp [MockBroker.Initialize, List.getElem?_range, hi, ParseDecimal_FormatInt]
    · push_cast
      omega

/-- The three publishes of a concrete run: offset 4 afterwards, IDs 1 < 2 < 3. -/
theorem publish_offset_and_increasing_ids_witness :
    (publishAll (fun m : String => (m, none)) "topic1"
        (MockBroker.Initialize ⟨["old"]⟩ []) ["a", "b", "c"]).1.GetOffset "topic1"
      = ((["a", "b", "c"] : List String).length : Int) + 1 :=
  (publish_offset_and_increasing_ids (fun m : String => (m, none)) ⟨["old"]⟩ [] "topic1"
    ["a", "b", "c"]).1

/-- C7, as stated, fails: the first publish on a fresh broker does not return
the message ID "0". -/
theorem first_publish_not_zero :
    (MockBroker.Publish (fun m : String => (m, none)) (MockBroker.Initialize ⟨[]⟩ [])
        "topic1" "payload").2.msgID ≠ "0" := by
  decide

/-- C7, amended: the first publish on a freshly initialised in-memory broker
returns the message ID "1", for every topic and every message. -/
theorem first_publish_returns_one {Message : Type}
    (ExportJSON : Message → String × Option String) (b0 : MockBroker) (peers : List String)
    (topic : String) (msg : Message) :
    (MockBroker.Publish ExportJSON (b0.Initialize peers) topic msg).2.msgID = "1" := by
  simp only [MockBroker.Publish, MockBroker.Initialize, MockBroker.GetOffset, List.nil_append,
    List.length_singleton]
  decide

/-- C8, as stated, fails: a consume from offset 1 of a broker holding two
messages returns both, not only the message at position 1. -/
theorem consume_ignores_offset :
    MockBroker.Consume ⟨["m0", "m1"]⟩ "topic1" 1 true ≠ (["m0", "m1"] : List String).drop 1 := by
  decide

/-- C8, amended: for every broker state, topic, offset at least 0 and flag,
`Consume` returns all stored messages in stored order; that is the messages at
positions at or after the offset exactly when the offset is 0 or nothing is
stored. -/
theorem consume_returns_all (b : MockBroker) (topic : String) (offset : Int) (imm : Bool)
    (h : 0 ≤ offset) :
    b.Consume topic offset imm = b.MsgList ∧
    (b.Consume topic offset imm = b.MsgList.drop offset.toNat ↔
      offset = 0 ∨ b.MsgList = []) := by
  refine ⟨rfl, ?_⟩
  simp only [MockBroker.Consume]
  constructor
  · intro hd
    by_cases h0 : offset = 0
    · exact Or.inl h0
    · right
      have hlen := congrArg List.length hd
      simp only [List.length_drop] at hlen
      have hpos : 0 < offset.toNat := by omega
      exact List.length_eq_zero.mp (by omega)
  · rintro (h0 | h0)
    · simp [h0]
    · simp [h0]

/-- A consume from offset 0 of a broker holding one message returns it. -/
theorem consume_returns_all_witness :
    MockBroker.Consume ⟨["m0"]⟩ "topic1" 0 true = ["m0"] :=
  (consume_returns_all ⟨["m0"]⟩ "topic1" 0 true (by decide)).1

/-! ## Validation of the path variables -/

/-- Indexing a map at the key of one of its entries gives that entry's value. -/
theorem lookup_of_mem (l : List (String × String)) (k v : String)
    (h : (l.map Prod.fst).Nodup) (hm : (k, v) ∈ l) : l.lookup k = some v := by
  induction l with
  | nil => simp at hm
  | cons a l ih =>
    obtain ⟨a1, a2⟩ := a
    simp only [List.map_cons, List.nodup_cons, List.mem_map, not_exists, not_and] at h
    simp only [List.mem_cons, Prod.mk.injEq] at hm
    rcases hm with ⟨rfl, rfl⟩ | hm
    · simp [List.lookup]
    · have hne : (k == a1) = false := by
        apply beq_false_of_ne
        intro e
        subst e
        exact h.1 (k, v) hm rfl
      rw [List.lookup_cons, hne]
      exact ih h.2 hm

theorem Vars.get_of_mem (m : Vars) (k v : String) (hm : (k, v) ∈ m.entries) :
    m.get k = v := by
  simp [Vars.get, lookup_of_mem m.entries k v m.nodup hm]

theorem mem_sortStrings (keys : List String) (k : String) :
    k ∈ sortStrings keys ↔ k ∈ keys := by
  simp [sortStrings, List.mem_insertionSort]

theorem sortStrings_sorted (keys : List String) :
    (sortStrings keys).Pairwise (fun a b => a ≤ b) :=
  List.sorted_insertionSort (fun a b : String => a ≤ b) keys

/-- The first failing key in sorted order: it is a key of the map whose value
fails, and no key with a failing value is smaller. -/
theorem find_first_invalid (ValidName : String → Bool) (m : Vars) (key : String)
    (h : (sortStrings m.keys).find? (fun key => ValidName (m.get key) == false) = some key) :
    (∃ v, (key, v) ∈ m.entries ∧ ValidName v = false) ∧
    ∀ kv ∈ m.entries, ValidName kv.2 = false → key ≤ kv.1 := by
  have hp := List.find?_some h
  have hmem : key ∈ m.keys := (mem_sortStrings _ _).1 (List.mem_of_find?_eq_some h)
  obtain ⟨-, as, bs, hsplit, has⟩ := List.find?_eq_some.1 h
  constructor
  · simp only [Vars.keys, List.mem_map] at hmem
    obtain ⟨⟨k, v⟩, hkv, rfl⟩ := hmem
    refine ⟨v, hkv, ?_⟩
    rw [Vars.get_of_mem m k v hkv] at hp
    simpa using hp
  · intro kv hkv hfail
    have hk : kv.1 ∈ sortStrings m.keys :=
      (mem_sortStrings _ _).2 (List.mem_map_of_mem Prod.fst hkv)
    have hget : m.get kv.1 = kv.2 := Vars.get_of_mem m kv.1 kv.2 hkv
    have hsorted := sortStrings_sorted m.keys
    rw [hsplit] at hk hsorted
    rcases List.mem_append.1 hk with hk | hk
    · have := has kv.1 hk
      simp [hget, hfail] at this
    · rcases List.mem_cons.1 hk with hk | hk
      · exact le_of_eq hk.symm
      · exact (List.pairwise_cons.1 (List.pairwise_append.1 hsorted).2.1).1 kv.1 hk

/-- C1: `WrapValidate` rejects the request (answers `InvalidName`, does not
call the wrapped handler) if and only if the value of some path variable fails
`ValidName`; the key named in the error is the smallest key whose value fails;
when no value fails the wrapped handler is called exactly once and nothing
else happens. -/
theorem WrapValidate_rejects_iff {Store : Type} (ValidName : String → Bool)
    (r : Request Store) :
    ((∃ key, (WrapValidate ValidName r).2 = [Event.respondErr (.InvalidName key)]) ↔
      ∃ kv ∈ r.urlVars.entries, ValidName kv.2 = false) ∧
    (∀ key, (WrapValidate ValidName r).2 = [Event.respondErr (.InvalidName key)] →
      (∃ v, (key, v) ∈ r.urlVars.entries ∧ ValidName v = false) ∧
      ∀ kv ∈ r.urlVars.entries, ValidName kv.2 = false → key ≤ kv.1) ∧
    ((∀ kv ∈ r.urlVars.entries, ValidName kv.2 = true) →
      (WrapValidate ValidName r).2 = [Event.ServeHTTP r]) ∧
    ((WrapValidate ValidName r).2 = [Event.ServeHTTP r] ∨
      ∃ key, (WrapValidate ValidName r).2 = [Event.respondErr (.InvalidName key)]) := by
  unfold WrapValidate
  simp only
  cases hf : (sortStrings r.urlVars.keys).find?
      (fun key => ValidName (r.urlVars.get key) == false) with
  | none =>
    have hall : ∀ kv ∈ r.urlVars.entries, ValidName kv.2 = true := by
      intro kv hkv
      have hk : kv.1 ∈ sortStrings r.urlVars.keys :=
        (mem_sortStrings _ _).2 (List.mem_map_of_mem Prod.fst hkv)
      have := List.find?_eq_none.1 hf kv.1 hk
      rw [Vars.get_of_mem r.urlVars kv.1 kv.2 hkv] at this
      simpa using this
    refine ⟨⟨?_, ?_⟩, ?_, ?_, Or.inl rfl⟩
    · rintro ⟨key, hkey⟩
      simp at hkey
    · rintro ⟨kv, hkv, hfail⟩
      rw [hall kv hkv] at hfail
      exact absurd hfail (by decide)
    · intro key hkey
      simp at hkey
    · intro _
      rfl
  | some key =>
    have hfirst := find_first_invalid ValidName r.urlVars key hf
    refine ⟨⟨?_, ?_⟩, ?_, ?_, Or.inr ⟨key, rfl⟩⟩
    · intro _
      obtain ⟨v, hv, hfail⟩ := hfirst.1
      exact ⟨(key, v), hv, hfail⟩
    · intro _
      exact ⟨key, rfl⟩
    · intro key1 hkey1
      simp only [List.cons.injEq, Event.respondErr.injEq, APIErrorRoot.InvalidName.injEq,
        and_true] at hkey1
      subst hkey1
      exact hfirst
    · intro hall
      obtain ⟨v, hv, hfail⟩ := hfirst.1
      rw [hall (key, v) hv] at hfail
      exact absurd hfail (by decide)

/-- Two values fail, under the keys `topic` and `project`: the request is
rejected. -/
theorem WrapValidate_rejects_iff_witness :
    ∃ key, (WrapValidate sampleValidName
        (sampleRequest "topics:show" "bad project" "bad topic" "k")).2
      = [Event.respondErr (.InvalidName key)] :=
  (WrapValidate_rejects_iff sampleValidName
      (sampleRequest "topics:show" "bad project" "bad topic" "k")).1.2
    ⟨("topic", "bad topic"), by simp [sampleRequest], by decide⟩

/-! ## Authentication -/

/-- C2, as stated, fails: a request that presents the service token for a
project name that resolves to no UUID, on a route other than project creation,
is answered `NotFound`; no role is attached and the next handler is not called. -/
theorem service_token_unresolved_project :
    (sampleRequest "topics:list" "ghost" "t1" "S3CR3T").query.Get "key"
      = (sampleRequest "topics:list" "ghost" "t1" "S3CR3T").ctx.auth_service_token ∧
    (WrapAuthenticate sampleGetUUIDByName sampleAuthenticate (fun _ _ => "")
        (sampleRequest "topics:list" "ghost" "t1" "S3CR3T")).2
      = [Event.projectsGetUUIDByName "ghost", Event.respondErr (.NotFound "project")] ∧
    (WrapAuthenticate sampleGetUUIDByName sampleAuthenticate (fun _ _ => "")
        (sampleRequest "topics:list" "ghost" "t1" "S3CR3T")).1.ctx.auth_roles = none := by
  refine ⟨by decide, ?_, ?_⟩ <;> rfl

/-- C2, amended: when the key equals the configured non-empty service token and
the request passes the project check (the route is project creation, or the
project name is empty, or it resolves to a UUID), the roles attached are
exactly `service_admin`, the attached user name and user UUID are empty,
`auth.Authenticate` is not called and the next handler is invoked with the
request so extended. -/
theorem service_token_grants_service_admin {Store : Type}
    (GetUUIDByName : String → Store → String)
    (Authenticate : String → String → Store → List String × String)
    (authGetUUIDByName : String → Store → String) (r : Request Store)
    (hkey : r.query.Get "key" = r.ctx.auth_service_token)
    (htoken : r.ctx.auth_service_token ≠ "")
    (hproject : r.routeName = "projects:create" ∨ r.urlVars.get "project" = "" ∨
      GetUUIDByName (r.urlVars.get "project") r.ctx.str ≠ "") :
    (WrapAuthenticate GetUUIDByName Authenticate authGetUUIDByName r).1.ctx.auth_roles
      = some ["service_admin"] ∧
    (WrapAuthenticate GetUUIDByName Authenticate authGetUUIDByName r).1.ctx.auth_user
      = some "" ∧
    (WrapAuthenticate GetUUIDByName Authenticate authGetUUIDByName r).1.ctx.auth_user_uuid
      = some "" ∧
    (WrapAuthenticate GetUUIDByName Authenticate authGetUUIDByName r).2
      = [Event.projectsGetUUIDByName (r.urlVars.get "project"),
         Event.ServeHTTP (WrapAuthenticate GetUUIDByName Authenticate authGetUUIDByName r).1] ∧
    ∀ projectUUID key, Event.authAuthenticate projectUUID key ∉
      (WrapAuthenticate GetUUIDByName Authenticate authGetUUIDByName r).2 := by
  have hne : ¬ r.query.Get "key" = "" := by rw [hkey]; exact htoken
  have hcheck : ¬ ("projects:create" ≠ r.routeName ∧ r.urlVars.get "project" ≠ "" ∧
      GetUUIDByName (r.urlVars.get "project") r.ctx.str = "") := by
    rintro ⟨h1, h2, h3⟩
    rcases hproject with h | h | h
    · exact h1 h.symm
    · exact h2 h
    · exact h h3
  have hsvc : r.ctx.auth_service_token ≠ "" ∧ r.ctx.auth_service_token = r.query.Get "key" :=
    ⟨htoken, hkey.symm⟩
  simp only [WrapAuthenticate, if_neg hne, if_neg hcheck, if_pos hsvc]
  simp

/-- The service token on a resolved project. -/
theorem service_token_grants_service_admin_witness :
    (WrapAuthenticate sampleGetUUIDByName sampleAuthenticate (fun _ _ => "")
        (sampleRequest "topics:list" "ARGO" "t1" "S3CR3T")).1.ctx.auth_roles
      = some ["service_admin"] :=
  (service_token_grants_service_admin sampleGetUUIDByName sampleAuthenticate (fun _ _ => "")
    (sampleRequest "topics:list" "ARGO" "t1" "S3CR3T") (by decide) (by decide)
    (Or.inr (Or.inr (by decide)))).1

/-- C4: for a request that passes the project check and whose non-empty key is
not the service token, a non-empty role list returned by `auth.Authenticate` is
attached unchanged together with the returned user, and the next handler is
invoked; an empty role list is answered `Unauthorized` (401), nothing is
attached and the next handler is not invoked. A request with an empty or
absent key is answered `Unauthorized` as well, before anything else is done. -/
theorem authenticate_attaches_roles {Store : Type}
    (GetUUIDByName : String → Store → String)
    (Authenticate : String → String → Store → List String × String)
    (authGetUUIDByName : String → Store → String) (r : Request Store) :
    (r.query.Get "key" = "" →
      WrapAuthenticate GetUUIDByName Authenticate authGetUUIDByName r
        = (r, [Event.respondErr .Unauthorized])) ∧
    (r.query.Get "key" ≠ "" →
      r.query.Get "key" ≠ r.ctx.auth_service_token →
      (r.routeName = "projects:create" ∨ r.urlVars.get "project" = "" ∨
        GetUUIDByName (r.urlVars.get "project") r.ctx.str ≠ "") →
      ((Authenticate (GetUUIDByName (r.urlVars.get "project") r.ctx.str)
          (r.query.Get "key") r.ctx.str).1 ≠ [] →
        (WrapAuthenticate GetUUIDByName Authenticate authGetUUIDByName r).1.ctx.auth_roles
          = some (Authenticate (GetUUIDByName (r.urlVars.get "project") r.ctx.str)
              (r.query.Get "key") r.ctx.str).1 ∧
        (WrapAuthenticate GetUUIDByName Authenticate authGetUUIDByName r).1.ctx.auth_user
          = some (Authenticate (GetUUIDByName (r.urlVars.get "project") r.ctx.str)
              (r.query.Get "key") r.ctx.str).2 ∧
        (WrapAuthenticate GetUUIDByName Authenticate authGetUUIDByName r).2
          = [Event.projectsGetUUIDByName (r.urlVars.get "project"),
             Event.authAuthenticate (GetUUIDByName (r.urlVars.get "project") r.ctx.str)
               (r.query.Get "key"),
             Event.authGetUUIDByName
               (Authenticate (GetUUIDByName (r.urlVars.get "project") r.ctx.str)
                 (r.query.Get "key") r.ctx.str).2,
             Event.ServeHTTP
               (WrapAuthenticate GetUUIDByName Authenticate authGetUUIDByName r).1]) ∧
      ((Authenticate (GetUUIDByName (r.urlVars.get "project") r.ctx.str)
          (r.query.Get "key") r.ctx.str).1 = [] →
        WrapAuthenticate GetUUIDByName Authenticate authGetUUIDByName r
          = (r, [Event.projectsGetUUIDByName (r.urlVars.get "project"),
                 Event.authAuthenticate (GetUUIDByName (r.urlVars.get "project") r.ctx.str)
                   (r.query.Get "key"),
                 Event.respondErr .Unauthorized]))) ∧
    Event.statusCode (Event.respondErr .Unauthorized : Event Store) = some 401 := by
  refine ⟨?_, ?_, rfl⟩
  · intro hkey
    simp only [WrapAuthenticate, if_pos hkey]
  · intro hne hnot hproject
    have hcheck : ¬ ("projects:create" ≠ r.routeName ∧ r.urlVars.get "project" ≠ "" ∧
        GetUUIDByName (r.urlVars.get "project") r.ctx.str = "") := by
      rintro ⟨h1, h2, h3⟩
      rcases hproject with h | h | h
      · exact h1 h.symm
      · exact h2 h
      · exact h h3
    have hsvc : ¬ (r.ctx.auth_service_token ≠ "" ∧
        r.ctx.auth_service_token = r.query.Get "key") := by
      rintro ⟨-, h⟩
      exact hnot h.symm
    constructor
    · intro hroles
      have hlen : (Authenticate (GetUUIDByName (r.urlVars.get "project") r.ctx.str)
          (r.query.Get "key") r.ctx.str).1.length > 0 := List.length_pos.2 hroles
      simp only [WrapAuthenticate, if_neg hne, if_neg hcheck, if_neg hsvc, if_pos hlen]
      simp
    · intro hroles
      have hlen : ¬ (Authenticate (GetUUIDByName (r.urlVars.get "project") r.ctx.str)
          (r.query.Get "key") r.ctx.str).1.length > 0 := by simp [hroles]
      simp only [WrapAuthenticate, if_neg hne, if_neg hcheck, if_neg hsvc, if_neg hlen]
      rfl

/-- The key of a publisher on a resolved project: the role list `publisher`
is attached as returned. -/
theorem authenticate_attaches_roles_witness :
    (WrapAuthenticate sampleGetUUIDByName sampleAuthenticate (fun _ _ => "uuid1")
        (sampleRequest "topics:publish" "ARGO" "t1" "userkey")).1.ctx.auth_roles
      = some ["publisher"] :=
  ((authenticate_attaches_roles sampleGetUUIDByName sampleAuthenticate (fun _ _ => "uuid1")
    (sampleRequest "topics:publish" "ARGO" "t1" "userkey")).2.1 (by decide) (by decide)
    (Or.inr (Or.inr (by decide)))).1 (by decide) |>.1

/-- C5: for a request with a non-empty key, a non-empty project name that
resolves to no UUID on a route other than `projects:create` is answered
`NotFound("project")` without invoking the next handler, whatever the key; on
the route `projects:create` no `NotFound` is written and the request goes on
to credential resolution: the service-token branch when the key is the
non-empty service token, the call of `auth.Authenticate` otherwise. -/
theorem unresolved_project_not_found {Store : Type}
    (GetUUIDByName : String → Store → String)
    (Authenticate : String → String → Store → List String × String)
    (authGetUUIDByName : String → Store → String) (r : Request Store)
    (hkey : r.query.Get "key" ≠ "") :
    (r.routeName ≠ "projects:create" → r.urlVars.get "project" ≠ "" →
      GetUUIDByName (r.urlVars.get "project") r.ctx.str = "" →
      WrapAuthenticate GetUUIDByName Authenticate authGetUUIDByName r
        = (r, [Event.projectsGetUUIDByName (r.urlVars.get "project"),
               Event.respondErr (.NotFound "project")])) ∧
    (r.routeName = "projects:create" →
      (∀ name, Event.respondErr (.NotFound name) ∉
        (WrapAuthenticate GetUUIDByName Authenticate authGetUUIDByName r).2) ∧
      ((r.ctx.auth_service_token ≠ "" ∧ r.ctx.auth_service_token = r.query.Get "key") →
        (WrapAuthenticate GetUUIDByName Authenticate authGetUUIDByName r).2
          = [Event.projectsGetUUIDByName (r.urlVars.get "project"),
             Event.ServeHTTP
               (WrapAuthenticate GetUUIDByName Authenticate authGetUUIDByName r).1]) ∧
      (¬ (r.ctx.auth_service_token ≠ "" ∧ r.ctx.auth_service_token = r.query.Get "key") →
        ∃ rest, (WrapAuthenticate GetUUIDByName Authenticate authGetUUIDByName r).2
          = [Event.projectsGetUUIDByName (r.urlVars.get "project"),
             Event.authAuthenticate (GetUUIDByName (r.urlVars.get "project") r.ctx.str)
               (r.query.Get "key")] ++ rest)) := by
  constructor
  · intro hroute hname huuid
    have hcheck : "projects:create" ≠ r.routeName ∧ r.urlVars.get "project" ≠ "" ∧
        GetUUIDByName (r.urlVars.get "project") r.ctx.str = "" :=
      ⟨fun h => hroute h.symm, hname, huuid⟩
    simp only [WrapAuthenticate, if_neg hkey, if_pos hcheck]
    rfl
  · intro hroute
    have hcheck : ¬ ("projects:create" ≠ r.routeName ∧ r.urlVars.get "project" ≠ "" ∧
        GetUUIDByName (r.urlVars.get "project") r.ctx.str = "") := by
      rintro ⟨h1, -, -⟩
      exact h1 hroute.symm
    by_cases hsvc : r.ctx.auth_service_token ≠ "" ∧
        r.ctx.auth_service_token = r.query.Get "key"
    · simp only [WrapAuthenticate, if_neg hkey, if_neg hcheck, if_pos hsvc]
      simp [hsvc, hkey]
    · by_cases hlen : (Authenticate (GetUUIDByName (r.urlVars.get "project") r.ctx.str)
          (r.query.Get "key") r.ctx.str).1.length > 0
      · simp only [WrapAuthenticate, if_neg hkey, if_neg hcheck, if_neg hsvc, if_pos hlen]
        simp [hsvc]
      · simp only [WrapAuthenticate, if_neg hkey, if_neg hcheck, if_neg hsvc, if_neg hlen]
        simp [hsvc]

/-- An unknown project on the topic listing route is answered `NotFound`. -/
theorem unresolved_project_not_found_witness :
    WrapAuthenticate sampleGetUUIDByName sampleAuthenticate (fun _ _ => "uuid1")
        (sampleRequest "topics:list" "ghost" "t1" "userkey")
      = (sampleRequest "topics:list" "ghost" "t1" "userkey",
         [Event.projectsGetUUIDByName "ghost", Event.respondErr (.NotFound "project")]) :=
  (unresolved_project_not_found sampleGetUUIDByName sampleAuthenticate (fun _ _ => "uuid1")
    (sampleRequest "topics:list" "ghost" "t1" "userkey") (by decide)).1
    (by decide) (by decide) (by decide)

/-! ## Authorization -/

/-- C3: with roles attached to the request, `WrapAuthorize` invokes the wrapped
handler if and only if the service token is non-empty and equals the key, or
`auth.Authorize` returns true; otherwise the answer is `Forbidden` and the
handler is not invoked. A key equal to the non-empty service token is granted
without a call of `auth.Authorize`. -/
theorem authorize_grants_iff {Store : Type} (Authorize : String → List String → Store → Bool)
    (routeName : String) (r : Request Store) (roles : List String)
    (hroles : r.ctx.auth_roles = some roles) :
    ((∃ r1, Event.ServeHTTP r1 ∈ (WrapAuthorize Authorize routeName r).2) ↔
      ((r.ctx.auth_service_token ≠ "" ∧ r.ctx.auth_service_token = r.query.Get "key") ∨
        Authorize routeName roles r.ctx.str = true)) ∧
    ((r.ctx.auth_service_token ≠ "" ∧ r.ctx.auth_service_token = r.query.Get "key") →
      WrapAuthorize Authorize routeName r = (r, [Event.ServeHTTP r])) ∧
    (¬ (r.ctx.auth_service_token ≠ "" ∧ r.ctx.auth_service_token = r.query.Get "key") →
      Authorize routeName roles r.ctx.str = true →
      WrapAuthorize Authorize routeName r
        = (r, [Event.authAuthorize routeName roles, Event.ServeHTTP r])) ∧
    (¬ (r.ctx.auth_service_token ≠ "" ∧ r.ctx.auth_service_token = r.query.Get "key") →
      Authorize routeName roles r.ctx.str = false →
      WrapAuthorize Authorize routeName r
        = (r, [Event.authAuthorize routeName roles, Event.respondErr .Forbidden])) := by
  by_cases hsvc : r.ctx.auth_service_token ≠ "" ∧
      r.ctx.auth_service_token = r.query.Get "key"
  · have hk : ¬ r.query.Get "key" = "" := by
      intro h
      exact hsvc.1 (hsvc.2.trans h)
    simp only [WrapAuthorize, hroles, if_pos hsvc]
    simp [hsvc, hk]
  · cases hauth : Authorize routeName roles r.ctx.str
    · simp only [WrapAuthorize, hroles, if_neg hsvc, hauth]
      simp [hsvc]
    · simp only [WrapAuthorize, hroles, if_neg hsvc, hauth]
      simp [hsvc]

/-- The service token is granted on a route that `auth.Authorize` denies to
everybody. -/
theorem authorize_grants_iff_witness :
    WrapAuthorize (fun _ _ _ => false) "topics:delete"
        { sampleRequest "topics:delete" "ARGO" "t1" "S3CR3T" with
          ctx := { sampleContext with auth_roles := some ["consumer"] } }
      = ({ sampleRequest "topics:delete" "ARGO" "t1" "S3CR3T" with
            ctx := { sampleContext with auth_roles := some ["consumer"] } },
         [Event.ServeHTTP { sampleRequest "topics:delete" "ARGO" "t1" "S3CR3T" with
            ctx := { sampleContext with auth_roles := some ["consumer"] } }]) :=
  (authorize_grants_iff (fun _ _ _ => false) "topics:delete"
    { sampleRequest "topics:delete" "ARGO" "t1" "S3CR3T" with
      ctx := { sampleContext with auth_roles := some ["consumer"] } }
    ["consumer"] rfl).2.1 (by decide)

/-! ## The health check -/

/-- C9, as stated, fails: a detailed health check with a key that matches no
user is answered `Forbidden`, not `Unauthorized`. -/
theorem health_details_unknown_key_forbidden :
    (HealthCheck sampleGetUserByToken (fun roles => roles.contains "admin_viewer")
        (fun roles => roles.contains "service_admin") sampleGetPushWorker sampleMarshalIndent
        (sampleHealthRequest "true" "nokey" true)).2
      = [Event.headerAdd "Content-Type" "application/json; charset=utf-8",
         Event.authGetUserByToken "nokey", Event.respondErr .Forbidden] := by
  rfl

/-- C9, amended: on a detailed health check, a key that matches no user (empty
user name) is answered `Forbidden`, and the key of a user holding neither the
admin-viewer nor the service-admin role is answered `Unauthorized`; in both
cases neither the push-worker token validation nor the push client's target
or health probe is performed. -/
theorem health_details_rejected {Store : Type}
    (GetUserByToken : String → Store → User × Option String)
    (IsAdminViewer IsServiceAdmin : List String → Bool)
    (GetPushWorker : String → Store → User × Option String)
    (MarshalIndent : HealthStatus → Except String String) (r : Request Store)
    (hdetails : r.query.Get "details" = "true") :
    ((GetUserByToken (r.query.Get "key") r.ctx.str).1.Name = "" →
      HealthCheck GetUserByToken IsAdminViewer IsServiceAdmin GetPushWorker MarshalIndent r
        = (r, [Event.headerAdd "Content-Type" "application/json; charset=utf-8",
               Event.authGetUserByToken (r.query.Get "key"),
               Event.respondErr .Forbidden])) ∧
    ((GetUserByToken (r.query.Get "key") r.ctx.str).1.Name ≠ "" →
      IsAdminViewer (GetUserByToken (r.query.Get "key") r.ctx.str).1.ServiceRoles = false →
      IsServiceAdmin (GetUserByToken (r.query.Get "key") r.ctx.str).1.ServiceRoles = false →
      HealthCheck GetUserByToken IsAdminViewer IsServiceAdmin GetPushWorker MarshalIndent r
        = (r, [Event.headerAdd "Content-Type" "application/json; charset=utf-8",
               Event.authGetUserByToken (r.query.Get "key"),
               Event.respondErr .Unauthorized])) ∧
    (((GetUserByToken (r.query.Get "key") r.ctx.str).1.Name = "" ∨
        (IsAdminViewer (GetUserByToken (r.query.Get "key") r.ctx.str).1.ServiceRoles = false ∧
         IsServiceAdmin (GetUserByToken (r.query.Get "key") r.ctx.str).1.ServiceRoles
           = false)) →
      (∀ token, Event.authGetPushWorker token ∉
        (HealthCheck GetUserByToken IsAdminViewer IsServiceAdmin GetPushWorker
          MarshalIndent r).2) ∧
      Event.apscTarget ∉
        (HealthCheck GetUserByToken IsAdminViewer IsServiceAdmin GetPushWorker
          MarshalIndent r).2 ∧
      Event.apscHealthCheck ∉
        (HealthCheck GetUserByToken IsAdminViewer IsServiceAdmin GetPushWorker
          MarshalIndent r).2) := by
  have hforbidden : (GetUserByToken (r.query.Get "key") r.ctx.str).1.Name = "" →
      HealthCheck GetUserByToken IsAdminViewer IsServiceAdmin GetPushWorker MarshalIndent r
        = (r, [Event.headerAdd "Content-Type" "application/json; charset=utf-8",
               Event.authGetUserByToken (r.query.Get "key"),
               Event.respondErr .Forbidden]) := by
    intro hname
    simp only [HealthCheck, if_pos hdetails, if_pos hname]
    rfl
  have hunauthorized : (GetUserByToken (r.query.Get "key") r.ctx.str).1.Name ≠ "" →
      IsAdminViewer (GetUserByToken (r.query.Get "key") r.ctx.str).1.ServiceRoles = false →
      IsServiceAdmin (GetUserByToken (r.query.Get "key") r.ctx.str).1.ServiceRoles = false →
      HealthCheck GetUserByToken IsAdminViewer IsServiceAdmin GetPushWorker MarshalIndent r
        = (r, [Event.headerAdd "Content-Type" "application/json; charset=utf-8",
               Event.authGetUserByToken (r.query.Get "key"),
               Event.respondErr .Unauthorized]) := by
    intro hname hviewer hadmin
    simp only [HealthCheck, if_pos hdetails, if_neg hname, hviewer, hadmin]
    rfl
  refine ⟨hforbidden, hunauthorized, ?_⟩
  intro h
  by_cases hname : (GetUserByToken (r.query.Get "key") r.ctx.str).1.Name = ""
  · rw [hforbidden hname]
    simp
  · rcases h with h | ⟨hviewer, hadmin⟩
    · exact absurd h hname
    · rw [hunauthorized hname hviewer hadmin]
      simp

/-- The key of a plain user on a detailed health check is answered
`Unauthorized`. -/
theorem health_details_rejected_witness :
    HealthCheck sampleGetUserByToken (fun roles => roles.contains "admin_viewer")
        (fun roles => roles.contains "service_admin") sampleGetPushWorker sampleMarshalIndent
        (sampleHealthRequest "true" "userkey" true)
      = (sampleHealthRequest "true" "userkey" true,
         [Event.headerAdd "Content-Type" "application/json; charset=utf-8",
          Event.authGetUserByToken "userkey", Event.respondErr .Unauthorized]) :=
  (health_details_rejected sampleGetUserByToken (fun roles => roles.contains "admin_viewer")
    (fun roles => roles.contains "service_admin") sampleGetPushWorker sampleMarshalIndent
    (sampleHealthRequest "true" "userkey" true) (by decide)).2.1
    (by decide) (by decide) (by decide)

/-- C10: for a health check that the details part lets through, and a JSON
encoder that does not fail on a report: with push disabled the report has
status `ok`, no push servers and `push_functionality` `disabled`, and neither
the worker-token validation nor the push client is called; with push enabled
the report leaves `push_functionality` unset, lists exactly one push server
(the client's target with its health result formatted with the detailed flag)
and has status `warning` exactly when the push-worker token fails validation,
`ok` otherwise. In both cases the answer is 200 with the encoded report. -/
theorem health_report {Store : Type}
    (GetUserByToken : String → Store → User × Option String)
    (IsAdminViewer IsServiceAdmin : List String → Bool)
    (GetPushWorker : String → Store → User × Option String)
    (MarshalIndent : HealthStatus → Except String String) (r : Request Store)
    (hpass : r.query.Get "details" ≠ "true" ∨
      ((GetUserByToken (r.query.Get "key") r.ctx.str).1.Name ≠ "" ∧
        (IsAdminViewer (GetUserByToken (r.query.Get "key") r.ctx.str).1.ServiceRoles = true ∨
         IsServiceAdmin (GetUserByToken (r.query.Get "key") r.ctx.str).1.ServiceRoles
           = true)))
    (hmarshal : ∀ m, ∃ bytes, MarshalIndent m = .ok bytes) :
    (r.ctx.push_enabled = false →
      ∃ bytes,
        MarshalIndent { Status := "ok", PushServers := [], PushFunctionality := "disabled" }
          = .ok bytes ∧
        (HealthCheck GetUserByToken IsAdminViewer IsServiceAdmin GetPushWorker
            MarshalIndent r).2
          = Event.headerAdd "Content-Type" "application/json; charset=utf-8" ::
            (if r.query.Get "details" = "true"
              then [Event.authGetUserByToken (r.query.Get "key")] else []) ++
            [Event.respondOK bytes]) ∧
    (r.ctx.push_enabled = true →
      ∃ bytes,
        MarshalIndent
          { Status :=
              if (GetPushWorker r.ctx.push_worker_token r.ctx.str).2 = none then "ok"
              else "warning",
            PushServers :=
              [{ Endpoint := r.ctx.apsc.Target,
                 Status := r.ctx.apsc.HealthCheckResult
                   (decide (r.query.Get "details" = "true")) }],
            PushFunctionality := "" }
          = .ok bytes ∧
        (HealthCheck GetUserByToken IsAdminViewer IsServiceAdmin GetPushWorker
            MarshalIndent r).2
          = Event.headerAdd "Content-Type" "application/json; charset=utf-8" ::
            (if r.query.Get "details" = "true"
              then [Event.authGetUserByToken (r.query.Get "key")] else []) ++
            [Event.authGetPushWorker r.ctx.push_worker_token, Event.apscTarget,
             Event.apscHealthCheck, Event.respondOK bytes]) ∧
    (HealthCheck GetUserByToken IsAdminViewer IsServiceAdmin GetPushWorker
        MarshalIndent r).2.getLast?.bind Event.statusCode = some 200 := by
  have hheader : "application/json" ++ "; charset=" ++ "utf-8"
      = "application/json; charset=utf-8" := by decide
  obtain ⟨bytesOff, hoff⟩ := hmarshal
    { Status := "ok", PushServers := [], PushFunctionality := "disabled" }
  obtain ⟨bytesOn, hon⟩ := hmarshal
    { Status :=
        if (GetPushWorker r.ctx.push_worker_token r.ctx.str).2 = none then "ok"
        else "warning",
      PushServers :=
        [{ Endpoint := r.ctx.apsc.Target,
           Status := r.ctx.apsc.HealthCheckResult
             (decide (r.query.Get "details" = "true")) }],
      PushFunctionality := "" }
  by_cases hdetails : r.query.Get "details" = "true"
  · rcases hpass with h | ⟨hname, hrole⟩
    · exact absurd hdetails h
    · have hroles : ¬ (!IsAdminViewer
            (GetUserByToken (r.query.Get "key") r.ctx.str).1.ServiceRoles &&
          !IsServiceAdmin
            (GetUserByToken (r.query.Get "key") r.ctx.str).1.ServiceRoles) = true := by
        rcases hrole with h | h <;> simp [h]
      cases hpush : r.ctx.push_enabled
      · simp only [HealthCheck, if_pos hdetails, if_neg hname, if_neg hroles, hpush, hheader]
        simp [hoff, Event.statusCode]
      · cases herr : (GetPushWorker r.ctx.push_worker_token r.ctx.str).2
        · simp [herr, hdetails] at hon
          simp only [HealthCheck, if_pos hdetails, if_neg hname, if_neg hroles, hpush, hheader,
            herr]
          simp [hon, hdetails, Event.statusCode]
        · simp [herr, hdetails] at hon
          simp only [HealthCheck, if_pos hdetails, if_neg hname, if_neg hroles, hpush, hheader,
            herr]
          simp [hon, hdetails, Event.statusCode]
  · cases hpush : r.ctx.push_enabled
    · simp only [HealthCheck, if_neg hdetails, hpush, hheader]
      simp [hoff, Event.statusCode]
    · cases herr : (GetPushWorker r.ctx.push_worker_token r.ctx.str).2
      · simp [herr, hdetails] at hon
        simp only [HealthCheck, if_neg hdetails, hpush, hheader, herr]
        simp [hon, hdetails, Event.statusCode]
      · simp [herr, hdetails] at hon
        simp only [HealthCheck, if_neg hdetails, hpush, hheader, herr]
        simp [hon, hdetails, Event.statusCode]

/-- A plain health check with push enabled and a worker token the store does
not know is answered 200. -/
theorem health_report_witness :
    (HealthCheck sampleGetUserByToken (fun roles => roles.contains "admin_viewer")
        (fun roles => roles.contains "service_admin")
        (fun _ _ => ({ UUID := "", Name := "", ServiceRoles := [] }, some "not found"))
        sampleMarshalIndent (sampleHealthRequest "" "" true)).2.getLast?.bind Event.statusCode
      = some 200 :=
  (health_report sampleGetUserByToken (fun roles => roles.contains "admin_viewer")
    (fun roles => roles.contains "service_admin")
    (fun _ _ => ({ UUID := "", Name := "", ServiceRoles := [] }, some "not found"))
    sampleMarshalIndent (sampleHealthRequest "" "" true) (Or.inl (by decide))
    (fun _ => ⟨_, rfl⟩)).2.2

end ArgoMessaging
